import Mathlib

/-!
# Verification of the command-dispatch pipeline

A shallow embedding of the command-dispatch core of the repository
(`src/src/ai_agent/agent.py`, `src/src/commands/base.py`,
`src/src/commands/command_registry.py`, `src/src/prompts/prompt_manager.py`)
together with theorems settling the specification claims about it.

Modelling conventions:
* Strings are Lean `String`s; most scanning functions work on `List Char`
  (`String.data`), which matches Python's per-character string processing.
* Python exceptions become `Except String`; a raised exception `e` is
  `Except.error (str e)`.
* The streaming language-model service is an opaque deterministic oracle
  `ModelCall → List String` returning the chunk list of one completion
  request.  A dispatch returns the list of model calls it issued together
  with either the chunks yielded to the caller or the propagated error.
* The Python registries (`base.CommandRegistry` / the dict
  `commands`) preserve insertion order and overwrite in place on key
  collision; they are modelled by `List CommandMetadata` with `register`
  reproducing dict-assignment semantics.
* `re` usage in `Agent._extract_command` is restricted to the fixed shape
  `^lit (?P<v>[^\x7d]*) lit ... $` built from a command pattern.  The
  embedding compiles a pattern to a token list (`PatTok`) and implements
  exactly the backtracking semantics of that regex family (greedy
  longest-first capture of `[^\x7d]*`, full-span anchoring).  This is
  faithful whenever the pattern's literal text has no regex
  metacharacters and the variable names are Python identifiers; theorems
  quantifying over patterns carry those side conditions.
  `CommandRegistry.extract_command` of `command_registry.py` instead
  interprets the raw transformed pattern as a general regex, so for it a
  small regex parser/matcher (`Rx`) faithful to the constructs that can
  appear in those strings (escapes, character classes, named groups,
  `*`, and the compile-time errors) is provided.
-/

set_option maxRecDepth 8192

namespace AIAgent

/-- Variable metadata (`src/src/prompts/prompt_manager.py`,
`VariableMetadata`): name, description, example value.  The Python field
`example` is called `exampleVal` because `example` is a Lean keyword. -/
structure VariableMetadata where
  name : String
  description : String
  exampleVal : String
deriving DecidableEq

/-- One example response (the Python dicts with keys `result` and
`response` inside `example_success_responses` / `example_failed_responses`). -/
structure ResponseExample where
  result : String
  response : String
deriving DecidableEq

/-- Command metadata (`src/src/commands/base.py`, `CommandMetadata`).
The handler is modelled as a total function from the extracted variable
bindings (association list = Python keyword arguments) to
`Except String String`; `Except.error msg` models the handler raising an
exception with `str(e) = msg`. -/
structure CommandMetadata where
  name : String
  description : String
  explanation : String
  pattern : String
  vars : List VariableMetadata
  example_inputs : List String
  handler : List (String × String) → Except String String
  result_prompt : String
  unsuccessful_prompt : String
  example_success_responses : List ResponseExample
  example_failed_responses : List ResponseExample

/-- `CommandRegistry.register` (`base.py` lines 102-109): plain dict
assignment `self.commands[metadata.name] = metadata`.  Python dicts keep
the original position when an existing key is overwritten and append new
keys at the end. -/
def register (reg : List CommandMetadata) (md : CommandMetadata) :
    List CommandMetadata :=
  if reg.any (fun c => c.name == md.name) then
    reg.map (fun c => if c.name == md.name then md else c)
  else
    reg ++ [md]

/-- `CommandRegistry.get_command` (`base.py` lines 111-121):
`self.commands.get(name)`. -/
def get_command (reg : List CommandMetadata) (name : String) :
    Option CommandMetadata :=
  reg.find? (fun c => c.name == name)

/-- The read-only projection produced by
`CommandRegistry.get_all_commands` for prompt construction. -/
structure CommandInfo where
  pattern : String
  description : String
  explanation : String
  vars : List VariableMetadata
  example_inputs : List String
deriving DecidableEq

/-- `CommandRegistry.get_all_commands` (`base.py` lines 123-143):
a per-command projection, in registration order. -/
def get_all_commands (reg : List CommandMetadata) :
    List (String × CommandInfo) :=
  reg.map fun c =>
    (c.name, ⟨c.pattern, c.description, c.explanation, c.vars, c.example_inputs⟩)

/-! ## Python string preliminaries -/

/-- ASCII whitespace stripped by Python `str.strip()` (the unicode
whitespace also stripped by Python does not occur in this pipeline). -/
def isPySpace (c : Char) : Bool :=
  c == ' ' || c == '\t' || c == '\n' || c == '\r' || c == '\x0b' || c == '\x0c'

/-- Python `text.strip()` on a character list. -/
def pyStripL (l : List Char) : List Char :=
  (((l.dropWhile isPySpace).reverse).dropWhile isPySpace).reverse

/-- Python `str.replace(pat, rep)`: replace every non-overlapping
occurrence, scanning left to right, without rescanning replacements.
`pat = []` is never used by the embedded code. -/
def replaceList (pat rep : List Char) : List Char → List Char
  | [] => []
  | c :: rest =>
    if pat ≠ [] ∧ pat.isPrefixOf (c :: rest) then
      rep ++ replaceList pat rep (rest.drop (pat.length - 1))
    else
      c :: replaceList pat rep rest
termination_by l => l.length
decreasing_by
  · simp only [List.length_drop, List.length_cons]; omega
  · simp only [List.length_cons]; omega

/-- The parts of a list split at every non-overlapping occurrence of
`sep`, scanning left to right (Python `str.split(sep)` semantics; so
`l = intercalate sep (splitList sep l)`). -/
def splitList (sep : List Char) : List Char → List (List Char)
  | [] => [[]]
  | c :: rest =>
    if sep ≠ [] ∧ sep.isPrefixOf (c :: rest) then
      [] :: splitList sep (rest.drop (sep.length - 1))
    else
      match splitList sep rest with
      | [] => [[c]]
      | p :: ps => (c :: p) :: ps
termination_by l => l.length
decreasing_by
  · simp only [List.length_drop, List.length_cons]; omega
  · simp only [List.length_cons]; omega

/-! ## Pattern matcher (`Agent._extract_command`, `agent.py` lines 95-139) -/

/-- The non-greedy scan of `re.search(r'\[\[(.*?)\]\]', text)` after an
opening `[[` was found: the shortest prefix containing no newline
(`.` does not match `\n`) that is followed by `]]`. -/
def scanClose : List Char → Option (List Char)
  | [] => none
  | c :: rest =>
    if c = ']' ∧ rest.head? = some ']' then some []
    else if c = '\n' then none
    else (scanClose rest).map (c :: ·)

/-- `re.search(r'\[\[(.*?)\]\]', text)`: try each start position left to
right; at a position starting with `[[`, succeed with the shortest
newline-free group closed by `]]`, otherwise move one character right. -/
def findSpanAux : List Char → Option (List Char)
  | [] => none
  | c :: rest =>
    if c = '[' ∧ rest.head? = some '[' then
      match scanClose rest.tail with
      | some g => some g
      | none => findSpanAux rest
    else findSpanAux rest

/-- A compiled pattern token: a literal run of characters, or a variable
capture `(?P<v>[^\x7d]*)`. -/
inductive PatTok where
  | lit : List Char → PatTok
  | var : String → PatTok
deriving DecidableEq

/-- `pattern.replace("[[", "").replace("]]", "")` (`agent.py` line 126). -/
def stripDelims (l : List Char) : List Char :=
  replaceList (']' :: ']' :: []) [] (replaceList ('[' :: '[' :: []) [] l)

/-- Interleave a variable token between the parts of a split literal. -/
def interleaveVar (v : String) : List (List Char) → List PatTok
  | [] => []
  | [p] => [PatTok.lit p]
  | p :: ps => PatTok.lit p :: PatTok.var v :: interleaveVar v ps

/-- One step of `var_pattern.replace("{" + var.name + "}", group)`
(`agent.py` line 128), at the token level: every occurrence of the
placeholder inside a literal becomes a capture token. -/
def substVar (v : String) (toks : List PatTok) : List PatTok :=
  toks.flatMap fun t =>
    match t with
    | PatTok.var n => [PatTok.var n]
    | PatTok.lit l =>
      interleaveVar v (splitList ('\x7b' :: (v.data ++ ['\x7d'])) l)

/-- Compile a command's pattern the way `_extract_command` builds its
regex: strip the `[[` / `]]` delimiters, then substitute each declared
variable's placeholder, in declaration order. -/
def compileCommand (c : CommandMetadata) : List PatTok :=
  c.vars.foldl (fun acc vm => substVar vm.name acc)
    [PatTok.lit (stripDelims c.pattern.data)]

/-- Length of the longest match of `[^\x7d]*` at the head of `cs`. -/
def maxVarLen (cs : List Char) : Nat :=
  (cs.takeWhile (fun c => c ≠ '\x7d')).length

/-- `re.match("^" + var_pattern + "$", command_text)` for the compiled
token list: anchored match with Python backtracking semantics — each
`[^\x7d]*` capture greedily tries the longest run first and backtracks.
Returns the named captures (groupdict, in order of appearance). -/
def matchToks : List PatTok → List Char → Option (List (String × String))
  | [], cs => if cs = [] then some [] else none
  | PatTok.lit l :: rest, cs =>
    if l.isPrefixOf cs then matchToks rest (cs.drop l.length) else none
  | PatTok.var v :: rest, cs =>
    ((List.range (maxVarLen cs + 1)).reverse).findSome? fun k =>
      (matchToks rest (cs.drop k)).map fun m => (v, String.mk (cs.take k)) :: m

/-- The per-registry loop of `_extract_command` (lines 124-136): first
command (in registration order) whose compiled pattern matches the whole
delimited span wins; its captures are the variable bindings. -/
def firstMatch : List CommandMetadata → List Char →
    Option (String × List (String × String))
  | [], _ => none
  | c :: rest, span =>
    match matchToks (compileCommand c) span with
    | some m => some (c.name, m)
    | none => firstMatch rest span

/-- `Agent._extract_command` (`agent.py` lines 95-139): strip the text,
locate the first `[[...]]` span, and run the registry loop on it.  (The
`if not self.command_registry` early return is handled by the caller
`process_input`, which never reaches extraction with a `None` registry.) -/
def extract_command (reg : List CommandMetadata) (text : String) :
    Option (String × List (String × String)) :=
  match findSpanAux (pyStripL text.data) with
  | none => none
  | some span => firstMatch reg span

/-! ## Executor and dispatcher (`agent.py` lines 59-167) -/

/-- `Agent._execute_command` (`agent.py` lines 141-167).  The registry is
`Option` because the agent attribute may be `None`. -/
def execute_command (command_registry : Option (List CommandMetadata))
    (name : String) (vars : List (String × String)) : String × Bool :=
  match command_registry with
  | none => ("Command registry not initialized", false)
  | some reg =>
    match get_command reg name with
    | none => ("No handler registered for command: " ++ name, false)
    | some cmd =>
      match cmd.handler vars with
      | Except.ok r => (r, true)
      | Except.error e => ("Error executing command: " ++ e, false)

/-- One request to the opaque language-model service: a system message
and a user message (the generation parameters are fixed by environment
variables and irrelevant to the claims). -/
structure ModelCall where
  system : String
  user : String
deriving DecidableEq

/-- The per-command section of the system prompt
(`SystemPromptManager.format_system_prompt`, `prompt_manager.py` lines
115-126; the bullet is the literal three characters in the source). -/
def commandSection (name : String) (cmd : CommandInfo) : String :=
  "\nâ€¢ " ++ name ++ ":" ++
  "\n  Description: " ++ cmd.description ++
  "\n  Explanation: " ++ cmd.explanation ++
  "\n  Pattern: " ++ cmd.pattern ++
  "\n  Variables:" ++
  String.join (cmd.vars.map fun v =>
    "\n    - " ++ v.name ++ ": " ++ v.description ++ " (Example: " ++ v.exampleVal ++ ")") ++
  "\n  Example inputs:" ++
  String.join (cmd.example_inputs.map fun e => "\n    - " ++ e) ++
  "\n"

/-- `SystemPromptManager.format_system_prompt` (`prompt_manager.py`
lines 84-129). -/
def format_system_prompt (agent_purpose : String)
    (commands : List (String × CommandInfo)) : String :=
  "You are an AI assistant with the following purpose:\n" ++ agent_purpose ++
  "\n\nWhen a user\x27s request matches one of the available commands:\n" ++
  "1. DO NOT explain what you\x27re going to do\n" ++
  "2. DO NOT add any additional text or newlines\n" ++
  "3. ONLY respond with the exact command pattern, replacing variables with their values\n" ++
  "4. The response should be EXACTLY in the format shown in the Pattern field\n" ++
  "5. Variable names are case-sensitive, use them exactly as shown\n" ++
  "\nIf the request doesn\x27t match any command, respond naturally without using any command patterns.\n" ++
  "\nAvailable commands:\n" ++
  String.join (commands.map fun p => commandSection p.1 p.2) ++
  "\nRemember: When using a command, output ONLY the command pattern with no additional text or newlines."

/-- The phase-1 detection request issued by `_get_llm_response`
(`agent.py` lines 185-188). -/
def phase1Call (purpose : String) (reg : List CommandMetadata)
    (user_input : String) : ModelCall :=
  ⟨format_system_prompt purpose (get_all_commands reg), user_input⟩

/-- The post-match tail of `process_input` (`agent.py` lines 83-91):
execute the matched command, then stream the success-formatting or the
failure-formatting second completion.  `_get_llm_response_with_result`
and `_get_llm_error_response` (lines 205-287) re-look-up the command and
raise `ValueError` when it is absent. -/
def dispatchMatched (reg : List CommandMetadata)
    (service : ModelCall → List String) (call1 : ModelCall)
    (name : String) (vars : List (String × String)) :
    List ModelCall × Except String (List String) :=
  let r := execute_command (some reg) name vars
  if r.2 then
    match get_command reg name with
    | none => ([call1], Except.error ("Command not found: " ++ name))
    | some cmd =>
      let call2 : ModelCall := ⟨cmd.result_prompt, "Format this result: " ++ r.1⟩
      ([call1, call2], Except.ok (service call2))
  else
    match get_command reg name with
    | none => ([call1], Except.error ("Command not found: " ++ name))
    | some cmd =>
      let call2 : ModelCall := ⟨cmd.unsuccessful_prompt, "Handle this error: " ++ r.1⟩
      ([call1, call2], Except.ok (service call2))

/-- `Agent.process_input` (`agent.py` lines 59-93), with the opaque
service passed as an oracle.  Returns the model calls issued (in order)
and either the chunks yielded to the caller or the propagated error:
* registry `None` → immediate `RuntimeError`, no model call;
* otherwise issue the phase-1 call, accumulate all chunks, try to
  extract a command; no match → yield the accumulated text verbatim;
  match → `dispatchMatched`. -/
def process_input (purpose : String)
    (command_registry : Option (List CommandMetadata))
    (service : ModelCall → List String) (user_input : String) :
    List ModelCall × Except String (List String) :=
  match command_registry with
  | none => ([], Except.error "Command registry not initialized. Call initialize_commands() first.")
  | some reg =>
    let call1 := phase1Call purpose reg user_input
    let full := String.join (service call1)
    match extract_command reg full with
    | none => ([call1], Except.ok [full])
    | some (name, vars) => dispatchMatched reg service call1 name vars

/-! ## Registration decorator (`base.py` lines 145-211) -/

/-- Python `str.format` for the simple fields actually used by the
templates: `\x7b\x7b` → `\x7b`, `\x7d\x7d` → `\x7d`, `\x7bname\x7d` →
keyword lookup (a missing keyword raises `KeyError`, an unmatched brace
raises `ValueError`).  Conversion/format-spec syntax (`!`, `:`) does not
occur in the embedded templates. -/
def pyFormatL (args : List (String × String)) : List Char → Except String (List Char)
  | [] => Except.ok []
  | c :: rest =>
    if c = '\x7b' then
      if rest.head? = some '\x7b' then
        (pyFormatL args rest.tail).map ('\x7b' :: ·)
      else
        let fname := rest.takeWhile (fun d => d ≠ '\x7d')
        let after := rest.drop fname.length
        if after.head? = some '\x7d' then
          match (args.find? (fun p => p.1 == String.mk fname)).map Prod.snd with
          | some v => (pyFormatL args after.tail).map (fun t => v.data ++ t)
          | none => Except.error ("KeyError: " ++ String.mk fname)
        else Except.error "Single \x7b encountered in format string"
    else if c = '\x7d' then
      if rest.head? = some '\x7d' then
        (pyFormatL args rest.tail).map ('\x7d' :: ·)
      else Except.error "Single \x7d encountered in format string"
    else (pyFormatL args rest).map (c :: ·)
termination_by l => l.length
decreasing_by
  · simp only [List.length_tail, List.length_cons]; omega
  · simp only [List.length_tail, List.length_drop, List.length_cons]; omega
  · simp only [List.length_tail, List.length_cons]; omega
  · simp only [List.length_cons]; omega

/-- Python `template.format(examples=...)` on strings. -/
def pyFormat (s : String) (args : List (String × String)) : Except String String :=
  (pyFormatL args s.data).map String.mk

/-- The example blocks interpolated into a result/failure template
(`base.py` lines 180-193): `"For result: <r>\nResponse:\n<resp>"`
(resp. `"For error: ..."`) joined by blank lines. -/
def renderExampleBlocks (tag : String) (exs : List ResponseExample) : String :=
  String.intercalate "\n\n"
    (exs.map fun ex => "For " ++ tag ++ ": " ++ ex.result ++ "\nResponse:\n" ++ ex.response)

/-- The `command` decorator (`base.py` lines 145-211): render the result
prompt with the success examples and the failure prompt with the failure
examples (both via `str.format`, at registration time), then register
the metadata.  A format error raises out of registration. -/
def command (registry : List CommandMetadata)
    (name description explanation pattern : String)
    (vars : List VariableMetadata) (example_inputs : List String)
    (example_success_responses example_failed_responses : List ResponseExample)
    (result_prompt unsuccessful_prompt : String)
    (func : List (String × String) → Except String String) :
    Except String (List CommandMetadata) := do
  let fr ← pyFormat result_prompt
    [("examples", renderExampleBlocks "result" example_success_responses)]
  let fu ← pyFormat unsuccessful_prompt
    [("examples", renderExampleBlocks "error" example_failed_responses)]
  return register registry
    ⟨name, description, explanation, pattern, vars, example_inputs,
     func, fr, fu, example_success_responses, example_failed_responses⟩

/-! ## Spec-side notions used by the claims -/

/-- The placeholder names `\x7bx\x7d` occurring in a pattern string, in
order (the specification's notion of the placeholders of a pattern). -/
def placeholderNames : List Char → List String
  | [] => []
  | c :: rest =>
    if c = '\x7b' then
      let nm := rest.takeWhile (fun d => d ≠ '\x7d')
      if (rest.drop nm.length).head? = some '\x7d' then
        String.mk nm :: placeholderNames (rest.drop nm.length).tail
      else placeholderNames rest
    else placeholderNames rest
termination_by l => l.length
decreasing_by
  · simp only [List.length_tail, List.length_drop, List.length_cons]; omega
  · simp only [List.length_cons]; omega
  · simp only [List.length_cons]; omega

/-- Rendering a pattern with concrete values for its variables
(the specification's "substituting the values into the command's
pattern"): replace each declared variable's placeholder by its value. -/
def renderPattern (c : CommandMetadata) (vals : List (String × String)) : String :=
  String.mk (c.vars.foldl
    (fun acc vm =>
      replaceList ('\x7b' :: (vm.name.data ++ ['\x7d']))
        (((vals.find? (fun p => p.1 == vm.name)).map Prod.snd).getD "").data acc)
    c.pattern.data)

/-- A character that is printable-safe and free of the pattern
delimiters: not `[`, `]`, `\x7b`, `\x7d`, and not a newline.  This is
the reading of the specification's "printable, delimiter-free". -/
def plainChar (c : Char) : Bool :=
  !(c == '[' || c == ']' || c == '\x7b' || c == '\x7d' || c == '\n')

/-- A regex metacharacter of Python `re` (outside classes).  Pattern
literal text must avoid these for the token-level compilation to agree
with the regex the Python code builds. -/
def regexSpecial (c : Char) : Bool :=
  c == '.' || c == '*' || c == '+' || c == '?' || c == '(' || c == ')' ||
  c == '|' || c == '^' || c == '$' || c == '\\'

/-- A valid Python identifier over ASCII, as required of regex group
names (`(?P<name>`): nonempty, first char a letter or underscore, rest
alphanumeric or underscore. -/
def isPyIdent (v : String) : Bool :=
  match v.data with
  | [] => false
  | c :: rest => (c.isAlpha || c == '_') && rest.all (fun d => d.isAlphanum || d == '_')

/-! ## The second extractor (`CommandRegistry.extract_command`,
`command_registry.py` lines 158-184)

That method interpolates the raw pattern (still containing its own
`[[ ]]`) into `"\[\[" + pattern' + "\]\]"` after the textual
replacements `\x7b → (?P<` and `\x7d → >[^\x7d]*)`, and hands the
result to `re.search`.  Interpreting it therefore needs a model of the
relevant fragment of Python `re`: literals, `\c` escapes, `.`,
character classes, named groups `(?P<name>...)`, and `*`, including the
compile-time errors `re.compile` raises (Python reports them with a
position suffix which this model omits). -/

/-- Abstract syntax of the modelled regex fragment. -/
inductive Rx where
  | lit : Char → Rx
  | anyc : Rx
  | cls : Bool → List Char → Rx
  | star : Rx → Rx
  | group : String → List Rx → Rx

/-- Parse a character class after its opening `[`: optional `^`
negation, a leading `]` taken literally, members up to the closing `]`
(ranges and in-class escapes do not occur in the strings this model is
applied to). -/
def parseCls (l : List Char) : Except String (Rx × List Char) :=
  let pr : Bool × List Char := if l.head? = some '^' then (true, l.tail) else (false, l)
  let pr2 : List Char × List Char :=
    if pr.2.head? = some ']' then ([']'], pr.2.tail) else ([], pr.2)
  let body := pr2.2.takeWhile (fun c => c ≠ ']')
  let l3 := pr2.2.drop body.length
  if l3.head? = some ']' then Except.ok (Rx.cls pr.1 (pr2.1 ++ body), l3.tail)
  else Except.error "unterminated character set"

/-- Recursive-descent parser for the modelled regex fragment, mirroring
`re.compile`'s errors: an unmatched `)` is "unbalanced parenthesis", a
quantifier without operand "nothing to repeat", a doubled quantifier
"multiple repeat", an unclosed group "missing ), unterminated
subpattern".  `fuel` only forces termination; callers pass more fuel
than the input length so it never runs out. -/
def parseSeq (fuel : Nat) (depth : Nat) (acc : List Rx) :
    List Char → Except String (List Rx × List Char)
  | [] =>
    if depth = 0 then Except.ok (acc.reverse, [])
    else Except.error "missing ), unterminated subpattern"
  | c :: rest =>
    match fuel with
    | 0 => Except.error "internal: out of fuel"
    | fuel + 1 =>
      if c = '\\' then
        match rest with
        | [] => Except.error "bad escape (end of pattern)"
        | e :: rest2 => parseSeq fuel depth (Rx.lit e :: acc) rest2
      else if c = '[' then
        match parseCls rest with
        | Except.error msg => Except.error msg
        | Except.ok (r, rest2) => parseSeq fuel depth (r :: acc) rest2
      else if c = '(' then
        match rest with
        | '?' :: 'P' :: '<' :: rest2 =>
          let nm := rest2.takeWhile (fun d => d ≠ '>')
          let rest3 := rest2.drop nm.length
          if rest3.head? = some '>' then
            match parseSeq fuel (depth + 1) [] rest3.tail with
            | Except.error msg => Except.error msg
            | Except.ok (inner, rest4) =>
              parseSeq fuel depth (Rx.group (String.mk nm) inner :: acc) rest4
          else Except.error "missing >, unterminated name"
        | _ => Except.error "unsupported group syntax"
      else if c = ')' then
        if depth = 0 then Except.error "unbalanced parenthesis"
        else Except.ok (acc.reverse, rest)
      else if c = '*' then
        match acc with
        | [] => Except.error "nothing to repeat"
        | Rx.star _ :: _ => Except.error "multiple repeat"
        | a :: as => parseSeq fuel depth (Rx.star a :: as) rest
      else if c = '.' then
        parseSeq fuel depth (Rx.anyc :: acc) rest
      else
        parseSeq fuel depth (Rx.lit c :: acc) rest

/-- Whether a single-character regex item matches one character. -/
def rxOne (r : Rx) (c : Char) : Bool :=
  match r with
  | Rx.lit d => c == d
  | Rx.anyc => c ≠ '\n'
  | Rx.cls neg mem => if neg then !(mem.contains c) else mem.contains c
  | _ => false

/-- Backtracking sequence matcher: returns the named captures (in group
order) and the unconsumed remainder.  `star` is greedy with backtracking
(in the strings this model is applied to a `*` only quantifies
single-character items); a group matches by trying, longest first, every
consumed length whose text its body matches exactly. -/
def seqMatch : List Rx → List Char → Option (List (String × String) × List Char)
  | [], cs => some ([], cs)
  | Rx.star inner :: rest, cs =>
    ((List.range ((cs.takeWhile (fun c => rxOne inner c)).length + 1)).reverse).findSome?
      fun k => seqMatch rest (cs.drop k)
  | Rx.group nm inner :: rest, cs =>
    ((List.range (cs.length + 1)).reverse).findSome? fun k =>
      match seqMatch inner (cs.take k) with
      | some (g, []) =>
        (seqMatch rest (cs.drop k)).map fun pr =>
          ((nm, String.mk (cs.take k)) :: (g ++ pr.1), pr.2)
      | _ => none
  | r :: rest, cs =>
    match cs with
    | [] => none
    | c :: cs2 => if rxOne r c then seqMatch rest cs2 else none

/-- `re.search`: try every start position left to right. -/
def searchRx (rs : List Rx) : List Char → Option (List (String × String))
  | [] =>
    match seqMatch rs [] with
    | some (g, _) => some g
    | none => none
  | c :: cs2 =>
    match seqMatch rs (c :: cs2) with
    | some (g, _) => some g
    | none => searchRx rs cs2

/-- The regex string `CommandRegistry.extract_command` builds for one
command (`command_registry.py` lines 180-181):
`"\[\[" + pattern.replace("\x7b", "(?P<").replace("\x7d", ">[^\x7d]*)") + "\]\]"`. -/
def regexOfPattern (pattern : String) : String :=
  String.mk ("\\[\\[".data ++
    replaceList ['\x7d'] ">[^\x7d]*)".data
      (replaceList ['\x7b'] "(?P<".data pattern.data) ++
    "\\]\\]".data)

/-- `CommandRegistry.extract_command` (`command_registry.py` lines
158-184): for each registered command in order, compile the transformed
pattern and search the text; `Except.error` models the `re.error` that
`re.search` raises when the constructed regex does not compile. -/
def registry_extract_command :
    List CommandMetadata → String → Except String (Option (String × List (String × String)))
  | [], _ => Except.ok none
  | cmd :: rest, text =>
    let rstr := regexOfPattern cmd.pattern
    match parseSeq (rstr.length * 4 + 16) 0 [] rstr.data with
    | Except.error msg => Except.error msg
    | Except.ok (rs, _) =>
      match searchRx rs text.data with
      | some g => Except.ok (some (cmd.name, g))
      | none => registry_extract_command rest text

/-! ## Concrete fixtures used by witnesses and counterexamples -/

/-- The command registered by `src/examples/wallet_generation.py`, with
the two prompt texts shortened (only their identity matters below).
The handler mirrors `generate_wallet`: it raises
`ValueError("Simulated error for testing")` exactly when `user_id` is
`"error"`. -/
def walletCmd : CommandMetadata :=
  { name := "generate_wallet",
    description := "Generates a new cryptocurrency wallet",
    explanation := "Creates a secure cryptocurrency wallet",
    pattern := "[[GENERATE_WALLET_\x7buser_id\x7d]]",
    vars := [⟨"user_id", "Unique identifier of the user requesting the wallet", "user123"⟩],
    example_inputs := ["Please generate me a wallet"],
    handler := fun vs =>
      if ((vs.find? (fun p => p.1 == "user_id")).map Prod.snd) = some "error" then
        Except.error "Simulated error for testing"
      else Except.ok "Generated example wallet with address: xxxxxxxxxxxxxx",
    result_prompt := "wallet result prompt",
    unsuccessful_prompt := "wallet failure prompt",
    example_success_responses := [],
    example_failed_responses := [] }

/-- A second command with a pattern identical to `walletCmd`'s,
registered after it. -/
def walletCmd2 : CommandMetadata :=
  { walletCmd with name := "generate_wallet_2" }

/-- A descriptor violating the placeholder/descriptor correspondence:
its pattern contains the placeholder `user_id` but it declares no
variables. -/
def badCmd : CommandMetadata :=
  { walletCmd with name := "bad_cmd", vars := [] }

/-- A stub service always answering with plain prose. -/
def svcPlain : ModelCall → List String :=
  fun _ => ["Sure, I can help with that!"]

/-- A stub service emitting the failing wallet command instance in
phase 1 (recognized by its user message) and an apology otherwise. -/
def svcWallet : ModelCall → List String := fun call =>
  if call.user = "wallet please" then ["[[GENERATE_WALLET_error]]"]
  else ["Apologies, wallet creation failed."]

unseal replaceList splitList pyFormatL placeholderNames

/-! ## Helper lemmas -/

/-- Commands whose compiled pattern fails on the span are skipped by the
registry loop. -/
theorem firstMatch_skip (pre rest : List CommandMetadata) (span : List Char)
    (h : ∀ c ∈ pre, matchToks (compileCommand c) span = none) :
    firstMatch (pre ++ rest) span = firstMatch rest span := by
  induction pre with
  | nil => rfl
  | cons c pre ih =>
    simp only [List.cons_append, firstMatch, h c (by simp)]
    exact ih (fun c' hc' => h c' (by simp [hc']))

/-- A name returned by the registry loop is the name of a registered
command, so its lookup succeeds. -/
theorem firstMatch_name_registered (reg : List CommandMetadata) (span : List Char)
    (n : String) (m : List (String × String))
    (h : firstMatch reg span = some (n, m)) :
    (get_command reg n).isSome = true := by
  induction reg with
  | nil => simp [firstMatch] at h
  | cons c rest ih =>
    rw [firstMatch] at h
    cases hm : matchToks (compileCommand c) span with
    | some m' =>
      rw [hm] at h
      have hn : c.name = n := by
        injection h with h1
        exact congrArg Prod.fst h1
      simp [get_command, List.find?_cons, hn]
    | none =>
      rw [hm] at h
      by_cases hc : c.name == n
      · simp [get_command, List.find?_cons, hc]
      · simp only [get_command, List.find?_cons, hc]
        exact ih h

/-- Updating an existing key in place leaves the new value as the first
hit of a lookup. -/
theorem find?_map_update (md : CommandMetadata) (reg : List CommandMetadata)
    (h : reg.any (fun c => c.name == md.name) = true) :
    List.find? (fun c => c.name == md.name)
      (reg.map (fun c => if c.name == md.name then md else c)) = some md := by
  induction reg with
  | nil => simp at h
  | cons c rest ih =>
    by_cases hc : c.name = md.name
    · have hc' : (c.name == md.name) = true := beq_iff_eq.mpr hc
      simp only [List.map_cons, if_pos hc']
      exact List.find?_cons_of_pos _ (by simp)
    · have hc' : (c.name == md.name) = false := beq_eq_false_iff_ne.mpr hc
      simp only [List.map_cons, hc', Bool.false_eq_true, if_false]
      rw [List.find?_cons_of_neg _ (by simp [hc'])]
      refine ih ?_
      simpa [hc'] using h

/-- `register` always stores the descriptor under its name. -/
theorem get_command_register (reg : List CommandMetadata) (md : CommandMetadata) :
    get_command (register reg md) md.name = some md := by
  unfold register get_command
  by_cases h : reg.any (fun c => c.name == md.name) = true
  · rw [if_pos h]
    exact find?_map_update md reg h
  · rw [if_neg h]
    have h' : ∀ c ∈ reg, (fun c => c.name == md.name) c = false := by
      intro c hc
      by_contra hb
      exact h (List.any_eq_true.mpr ⟨c, hc, by simpa using hb⟩)
    induction reg with
    | nil => simp
    | cons c rest ih =>
      simp only [List.cons_append]
      rw [List.find?_cons_of_neg _ (by simp [h' c (by simp)])]
      exact ih (by intro hb; exact h (by simp [List.any_cons, hb]))
        (fun c' hc' => h' c' (by simp [hc']))

/-! ## Claim theorems -/

/-- C5 (confirmed): for every user input, calling `process_input` with
the command registry still `None` fails immediately with the
`RuntimeError` of `agent.py` lines 72-73, and the list of model-service
calls issued is empty — no model call is made before the failure. -/
theorem not_initialized_fail_fast (purpose : String)
    (service : ModelCall → List String) (user_input : String) :
    process_input purpose none service user_input
      = ([], Except.error "Command registry not initialized. Call initialize_commands() first.") :=
  rfl

/-- C7 counterexample: `badCmd`'s pattern contains the placeholder
`user_id` while it declares no variable descriptors, yet
`CommandRegistry.register` accepts it unchanged — registration does not
fail, refuting "registration fails (raises an error) for any descriptor
violating this correspondence". -/
theorem registration_validation_counterexample :
    placeholderNames badCmd.pattern.data = ["user_id"]
    ∧ badCmd.vars.map VariableMetadata.name = []
    ∧ register [] badCmd = [badCmd] :=
  ⟨by decide, rfl, rfl⟩

/-- C7 amended (proved): `CommandRegistry.register` performs no
validation at all: every descriptor, including one whose `\x7bvar\x7d`
placeholders do not correspond to its variable descriptors, is stored
unconditionally under its name. -/
theorem registration_no_validation (reg : List CommandMetadata) (md : CommandMetadata) :
    get_command (register reg md) md.name = some md :=
  get_command_register reg md

/-- C2 (confirmed): when the delimited span of the text is fully matched
by the patterns of two registered commands, the matcher deterministically
selects the one registered first (registration order, not best match) —
here `c1`, the first matching command, with every command registered
before it failing to match — and its captured groups become the variable
bindings. -/
theorem first_match_wins (reg pre mid post : List CommandMetadata)
    (c1 c2 : CommandMetadata) (text : String) (span : List Char)
    (m1 m2 : List (String × String))
    (hreg : reg = pre ++ c1 :: (mid ++ c2 :: post))
    (hspan : findSpanAux (pyStripL text.data) = some span)
    (h1 : matchToks (compileCommand c1) span = some m1)
    (h2 : matchToks (compileCommand c2) span = some m2)
    (hpre : ∀ c ∈ pre, matchToks (compileCommand c) span = none) :
    extract_command reg text = some (c1.name, m1) := by
  subst hreg
  unfold extract_command
  rw [hspan]
  dsimp only
  rw [firstMatch_skip pre _ span hpre]
  simp [firstMatch, h1]

/-- Witness for `first_match_wins`: `walletCmd` and `walletCmd2` have
identical patterns; on the rendered instance the earlier-registered
`generate_wallet` is selected. -/
theorem first_match_wins_witness :
    extract_command [walletCmd, walletCmd2] "[[GENERATE_WALLET_7]]"
      = some ("generate_wallet", [("user_id", "7")]) :=
  first_match_wins [walletCmd, walletCmd2] [] [] [] walletCmd walletCmd2
    "[[GENERATE_WALLET_7]]" "GENERATE_WALLET_7".data
    [("user_id", "7")] [("user_id", "7")] rfl (by decide) (by decide) (by decide)
    (fun c hc => absurd hc (List.not_mem_nil c))

/-- C6 counterexample: on the post-match dispatch path (`agent.py`
lines 83-91) with a matched name that has no registry entry, the
executor's synthetic message sends the call into the failure branch,
but `_get_llm_error_response` (lines 262-267) then raises
`ValueError("Command not found: ...")`: the condition is propagated to
the caller as an exception and no failure-prompt model call is issued,
refuting "recovered internally (never propagated to the caller as an
exception) and routed through the failure-prompt branch". -/
theorem unknown_command_counterexample :
    dispatchMatched [walletCmd] svcPlain ⟨"sys", "hi"⟩ "missing_cmd" []
      = ([⟨"sys", "hi"⟩], Except.error "Command not found: missing_cmd") :=
  rfl

/-- C6 amended (proved): the `UnknownCommand` condition cannot arise in
a dispatch — the matcher only returns names of registered commands, and
every registered command carries a handler; at the executor level an
unregistered name is indeed recovered into the synthetic message
`"No handler registered for command: <name>"` with `success = false`
instead of an exception (but the subsequent failure-prompt phase would
itself raise rather than recover, see the counterexample). -/
theorem unknown_command_recovery :
    (∀ (reg : List CommandMetadata) (text name : String) (vars : List (String × String)),
        extract_command reg text = some (name, vars) →
        (get_command reg name).isSome = true)
    ∧ (∀ (reg : List CommandMetadata) (name : String) (vars : List (String × String)),
        get_command reg name = none →
        execute_command (some reg) name vars
          = ("No handler registered for command: " ++ name, false)) := by
  constructor
  · intro reg text name vars h
    unfold extract_command at h
    cases hs : findSpanAux (pyStripL text.data) with
    | none => rw [hs] at h; exact absurd h (by simp)
    | some span =>
      rw [hs] at h
      exact firstMatch_name_registered reg span name vars h
  · intro reg name vars h
    unfold execute_command
    dsimp only
    rw [h]

/-- Witness for `unknown_command_recovery`: applied to the singleton
wallet registry and the unregistered name `missing_cmd`. -/
theorem unknown_command_recovery_witness :
    execute_command (some [walletCmd]) "missing_cmd" []
      = ("No handler registered for command: " ++ "missing_cmd", false) :=
  unknown_command_recovery.2 [walletCmd] "missing_cmd" [] rfl

/-- C3 (confirmed): when the accumulated phase-1 text contains no
`[[...]]` span, or its span matches no registered pattern, the dispatch
yields exactly that accumulated text — unmodified, in particular not
stripped — as the only chunk of the user-visible output, and the
phase-1 request is the only model call issued. -/
theorem no_match_safety (purpose : String) (reg : List CommandMetadata)
    (service : ModelCall → List String) (user_input : String)
    (h : findSpanAux (pyStripL (String.join (service (phase1Call purpose reg user_input))).data) = none
       ∨ ∃ span,
           findSpanAux (pyStripL (String.join (service (phase1Call purpose reg user_input))).data) = some span
           ∧ firstMatch reg span = none) :
    process_input purpose (some reg) service user_input
      = ([phase1Call purpose reg user_input],
         Except.ok [String.join (service (phase1Call purpose reg user_input))]) := by
  have hx : extract_command reg (String.join (service (phase1Call purpose reg user_input))) = none := by
    unfold extract_command
    rcases h with h | ⟨span, h1, h2⟩
    · rw [h]
    · rw [h1]
      dsimp only
      exact h2
  unfold process_input
  dsimp only
  rw [hx]

/-- Witness for `no_match_safety`: the registry of the wallet example
and a service answering `"Sure, I can help with that!"` — that exact
text is the final output and the dispatch stops after one model call. -/
theorem no_match_safety_witness :
    process_input "p" (some [walletCmd]) svcPlain "hi"
      = ([phase1Call "p" [walletCmd] "hi"],
         Except.ok [String.join (svcPlain (phase1Call "p" [walletCmd] "hi"))]) :=
  no_match_safety "p" [walletCmd] svcPlain "hi" (Or.inl (by decide))

/-- C4 (confirmed): a handler that raises never propagates out of the
dispatch: the exception message is captured as
`("Error executing command: " ++ msg, success = false)`, the dispatch
issues the failure-branch model call built from the command's
`unsuccessful_prompt`, completes without error, and — whenever the
service answers that call with at least one chunk — yields a non-empty
response. -/
theorem handler_failure_isolation (purpose : String)
    (reg : List CommandMetadata) (service : ModelCall → List String)
    (user_input name : String) (vars : List (String × String))
    (cmd : CommandMetadata) (msg : String)
    (hx : extract_command reg (String.join (service (phase1Call purpose reg user_input)))
            = some (name, vars))
    (hc : get_command reg name = some cmd)
    (hh : cmd.handler vars = Except.error msg)
    (hs : service ⟨cmd.unsuccessful_prompt,
            "Handle this error: " ++ ("Error executing command: " ++ msg)⟩ ≠ []) :
    execute_command (some reg) name vars = ("Error executing command: " ++ msg, false)
    ∧ process_input purpose (some reg) service user_input
        = ([phase1Call purpose reg user_input,
            ⟨cmd.unsuccessful_prompt, "Handle this error: " ++ ("Error executing command: " ++ msg)⟩],
           Except.ok (service ⟨cmd.unsuccessful_prompt,
             "Handle this error: " ++ ("Error executing command: " ++ msg)⟩))
    ∧ service ⟨cmd.unsuccessful_prompt,
        "Handle this error: " ++ ("Error executing command: " ++ msg)⟩ ≠ [] := by
  have hexec : execute_command (some reg) name vars
      = ("Error executing command: " ++ msg, false) := by
    unfold execute_command
    dsimp only
    rw [hc]
    dsimp only
    rw [hh]
  refine ⟨hexec, ?_, hs⟩
  unfold process_input
  dsimp only
  rw [hx]
  dsimp only
  unfold dispatchMatched
  rw [hexec]
  simp only [Bool.false_eq_true, if_false]
  rw [hc]

/-- Witness for `handler_failure_isolation`: the wallet example's
handler raising on `user_id = "error"`, with a service that emits
`[[GENERATE_WALLET_error]]` in phase 1 and an apology on the failure
branch. -/
theorem handler_failure_isolation_witness :
    execute_command (some [walletCmd]) "generate_wallet" [("user_id", "error")]
      = ("Error executing command: " ++ "Simulated error for testing", false)
    ∧ process_input "p" (some [walletCmd]) svcWallet "wallet please"
        = ([phase1Call "p" [walletCmd] "wallet please",
            ⟨walletCmd.unsuccessful_prompt,
             "Handle this error: " ++ ("Error executing command: " ++ "Simulated error for testing")⟩],
           Except.ok (svcWallet ⟨walletCmd.unsuccessful_prompt,
             "Handle this error: " ++ ("Error executing command: " ++ "Simulated error for testing")⟩))
    ∧ svcWallet ⟨walletCmd.unsuccessful_prompt,
        "Handle this error: " ++ ("Error executing command: " ++ "Simulated error for testing")⟩ ≠ [] :=
  handler_failure_isolation "p" [walletCmd] svcWallet "wallet please"
    "generate_wallet" [("user_id", "error")] walletCmd "Simulated error for testing"
    (by decide) rfl rfl (by decide)

/-- C8 counterexample: a template with no `\x7bexamples\x7d` slot is NOT
an error at registration (nor anywhere): Python `str.format` ignores the
unused keyword argument, so the `command` decorator registers the
descriptor with the template stored verbatim — refuting "a malformed
template (missing \x7bexamples\x7d slot ...) is an error at
registration". -/
theorem prompt_rendering_counterexample :
    command [] "noslot" "d" "e" "[[NOSLOT]]" [] [] [⟨"r", "x"⟩] [⟨"er", "y"⟩]
      "result template without slot" "failure template without slot"
      (fun _ => Except.ok "r")
      = Except.ok [⟨"noslot", "d", "e", "[[NOSLOT]]", [], [],
          fun _ => Except.ok "r",
          "result template without slot", "failure template without slot",
          [⟨"r", "x"⟩], [⟨"er", "y"⟩]⟩] :=
  rfl

/-- C8 amended (proved): whenever the two `str.format` renderings
succeed, the decorator registers — at registration time — metadata whose
stored `result_prompt` (resp. `unsuccessful_prompt`) is the template
with its `\x7bexamples\x7d` slots replaced by the success (resp.
failure) examples concatenated as `"For result: <r>\nResponse:\n<resp>"`
(resp. `"For error: ..."`) blocks separated by blank lines.  A template
referencing an unknown placeholder is an error at registration
(`pyFormat` returns `KeyError`), but a template merely missing the
`\x7bexamples\x7d` slot renders unchanged without error (see the
counterexample). -/
theorem prompt_rendering_amended
    (registry : List CommandMetadata)
    (name description explanation pattern : String)
    (vars : List VariableMetadata) (example_inputs : List String)
    (sexs fexs : List ResponseExample)
    (result_prompt unsuccessful_prompt fr fu : String)
    (func : List (String × String) → Except String String)
    (h1 : pyFormat result_prompt [("examples", renderExampleBlocks "result" sexs)]
            = Except.ok fr)
    (h2 : pyFormat unsuccessful_prompt [("examples", renderExampleBlocks "error" fexs)]
            = Except.ok fu) :
    command registry name description explanation pattern vars example_inputs
      sexs fexs result_prompt unsuccessful_prompt func
      = Except.ok (register registry
          ⟨name, description, explanation, pattern, vars, example_inputs,
           func, fr, fu, sexs, fexs⟩) := by
  unfold command
  rw [h1, h2]
  rfl

/-- Witness for `prompt_rendering_amended`: a concrete template with one
`\x7bexamples\x7d` slot and one success/failure example each. -/
theorem prompt_rendering_amended_witness :
    command [] "w" "d" "e" "[[W]]" [] [] [⟨"r1", "ok1"⟩] [⟨"e1", "bad1"⟩]
      "Results:\n\x7bexamples\x7d\nEnd." "Failures:\n\x7bexamples\x7d\nEnd."
      (fun _ => Except.ok "r")
      = Except.ok (register []
          ⟨"w", "d", "e", "[[W]]", [], [],
           fun _ => Except.ok "r",
           "Results:\nFor result: r1\nResponse:\nok1\nEnd.",
           "Failures:\nFor error: e1\nResponse:\nbad1\nEnd.",
           [⟨"r1", "ok1"⟩], [⟨"e1", "bad1"⟩]⟩) :=
  prompt_rendering_amended [] "w" "d" "e" "[[W]]" [] [] [⟨"r1", "ok1"⟩] [⟨"e1", "bad1"⟩]
    "Results:\n\x7bexamples\x7d\nEnd." "Failures:\n\x7bexamples\x7d\nEnd."
    "Results:\nFor result: r1\nResponse:\nok1\nEnd."
    "Failures:\nFor error: e1\nResponse:\nbad1\nEnd."
    (fun _ => Except.ok "r") rfl rfl

/-- C10 counterexample: on the wallet registry and the scenario-A text
the two extractors disagree: `Agent._extract_command` succeeds, while
`CommandRegistry.extract_command` raises `re.error` ("unbalanced
parenthesis") — its regex keeps the pattern's own `[[ ]]`, whose doubled
`[` opens a character class that swallows the capture group's `(`. -/
theorem matcher_equivalence_counterexample :
    extract_command [walletCmd] "[[GENERATE_WALLET_123]]"
      = some ("generate_wallet", [("user_id", "123")])
    ∧ registry_extract_command [walletCmd] "[[GENERATE_WALLET_123]]"
      = Except.error "unbalanced parenthesis" :=
  ⟨by decide, rfl⟩

/-- C10 amended (proved): the two extraction implementations are not
equivalent: on the wallet registry `CommandRegistry.extract_command`
raises for every input text (the malformed regex fails to compile before
the text is inspected), while `Agent._extract_command` performs the
intended match. -/
theorem matcher_equivalence_divergence :
    (∀ text : String,
        registry_extract_command [walletCmd] text
          = Except.error "unbalanced parenthesis")
    ∧ extract_command [walletCmd] "Sure! [[GENERATE_WALLET_123]]"
        = some ("generate_wallet", [("user_id", "123")]) :=
  ⟨fun _ => rfl, by decide⟩

/-- Scanning a reversed range finds the value at `0` when every positive
index fails (the backtracking capture falling through to the empty
match). -/
theorem findSome?_reverse_range_zero {α : Type} (f : Nat → Option α) (n : Nat)
    (h : ∀ k, 0 < k → k ≤ n → f k = none) :
    ((List.range (n + 1)).reverse).findSome? f = f 0 := by
  induction n with
  | zero =>
    show List.findSome? f [0] = f 0
    cases hf : f 0 <;> simp [List.findSome?, hf]
  | succ n ih =>
    rw [show n + 1 + 1 = (n + 1) + 1 from rfl, List.range_succ, List.reverse_append]
    simp only [List.reverse_cons, List.reverse_nil, List.nil_append, List.cons_append,
      List.findSome?_cons, h (n + 1) (Nat.succ_pos n) (Nat.le_refl _)]
    exact ih (fun k hk hkn => h k hk (Nat.le_succ_of_le hkn))

/-- A nonempty list is never a prefix of a proper suffix of itself. -/
theorem not_isPrefixOf_drop (e : List Char) (k : Nat) (hk : 0 < k) (he : e ≠ []) :
    e.isPrefixOf (e.drop k) = false := by
  by_contra hb
  have hp : e <+: e.drop k :=
    List.isPrefixOf_iff_prefix.mp (by simpa using hb)
  have hl : e.length ≤ (e.drop k).length := hp.length_le
  rw [List.length_drop] at hl
  have : e.length = 0 := by omega
  exact he (List.length_eq_zero.mp this)

/-- A trailing capture followed only by the residual literal binds the
empty string on the span that is exactly the surrounding literals. -/
theorem matchToks_var_empty (v : String) (e : List Char) :
    matchToks [PatTok.var v, PatTok.lit e] e = some [(v, "")] := by
  rw [matchToks]
  rw [findSome?_reverse_range_zero _ (maxVarLen e)]
  · simp only [List.drop_zero, List.take_zero]
    rw [matchToks]
    rw [if_pos (by simp [List.isPrefixOf_iff_prefix])]
    rw [List.drop_length]
    simp [matchToks]
  · intro k hk hkn
    rcases he : e with _ | ⟨c, e'⟩
    · subst he
      simp only [maxVarLen, List.takeWhile_nil, List.length_nil] at hkn
      omega
    · rw [← he]
      rw [matchToks]
      rw [not_isPrefixOf_drop e k hk (by simp [he])]
      simp

/-- C9 (confirmed): an empty capture is permitted: for a command whose
compiled pattern is a literal prefix followed by a trailing variable
(and the residual literal left after it, empty for a pattern ending in
`\x7bvar\x7d]]`), the delimited span consisting of the literals alone
matches and binds the variable to `""`. -/
theorem empty_capture (c : CommandMetadata) (s : List Char) (v : String) (e : List Char)
    (hc : compileCommand c = [PatTok.lit s, PatTok.var v, PatTok.lit e]) :
    matchToks (compileCommand c) (s ++ e) = some [(v, "")] := by
  rw [hc, matchToks]
  rw [if_pos (by simp [List.isPrefixOf_iff_prefix])]
  rw [List.drop_left]
  exact matchToks_var_empty v e

/-- Witness for `empty_capture`: the wallet pattern on the delimited
span `[[GENERATE_WALLET_]]` yields the binding `user_id = ""`. -/
theorem empty_capture_witness :
    matchToks (compileCommand walletCmd) ("GENERATE_WALLET_".data ++ [])
      = some [("user_id", "")]
    ∧ extract_command [walletCmd] "[[GENERATE_WALLET_]]"
      = some ("generate_wallet", [("user_id", "")]) :=
  ⟨empty_capture walletCmd "GENERATE_WALLET_".data "user_id" [] (by decide), by decide⟩

/-! ## Round-trip helper lemmas -/

/-- `String.append` concatenates the underlying character lists. -/
theorem data_append (a b : String) : (a ++ b).data = a.data ++ b.data := rfl

/-- `replaceList` walks past characters that cannot start the pattern. -/
theorem replaceList_skip (p : Char) (pt rep l1 l2 : List Char)
    (h : ∀ ch ∈ l1, ch ≠ p) :
    replaceList (p :: pt) rep (l1 ++ l2) = l1 ++ replaceList (p :: pt) rep l2 := by
  induction l1 with
  | nil => rfl
  | cons c l1 ih =>
    rw [List.cons_append, replaceList]
    rw [if_neg (by
      rintro ⟨-, hpre⟩
      simp only [List.isPrefixOf, Bool.and_eq_true, beq_iff_eq] at hpre
      exact h c (by simp) hpre.1.symm)]
    rw [ih (fun ch hm => h ch (by simp [hm]))]
    simp

/-- `replaceList` fires at an occurrence of the pattern. -/
theorem replaceList_head (pat rep l2 : List Char) (hp : pat ≠ []) :
    replaceList pat rep (pat ++ l2) = rep ++ replaceList pat rep l2 := by
  rcases pat with _ | ⟨p, pt⟩
  · exact absurd rfl hp
  · rw [List.cons_append, replaceList]
    rw [if_pos ⟨by simp, List.isPrefixOf_iff_prefix.mpr (by
      rw [← List.cons_append]; exact List.prefix_append _ _)⟩]
    congr 1
    rw [List.length_cons, Nat.add_sub_cancel, List.drop_left]

/-- `replaceList` leaves a pattern-free list unchanged. -/
theorem replaceList_of_not_mem (p : Char) (pt rep l : List Char)
    (h : ∀ ch ∈ l, ch ≠ p) :
    replaceList (p :: pt) rep l = l := by
  have := replaceList_skip p pt rep l [] h
  simpa [show replaceList (p :: pt) rep [] = ([] : List Char) from rfl] using this

/-- `splitList` walks past characters that cannot start the separator. -/
theorem splitList_skip (p : Char) (pt l1 l2 : List Char)
    (hd : List Char) (parts : List (List Char))
    (h : ∀ ch ∈ l1, ch ≠ p)
    (hsp : splitList (p :: pt) l2 = hd :: parts) :
    splitList (p :: pt) (l1 ++ l2) = (l1 ++ hd) :: parts := by
  induction l1 with
  | nil => simpa using hsp
  | cons c l1 ih =>
    rw [List.cons_append, splitList]
    rw [if_neg (by
      rintro ⟨-, hpre⟩
      simp only [List.isPrefixOf, Bool.and_eq_true, beq_iff_eq] at hpre
      exact h c (by simp) hpre.1.symm)]
    rw [ih (fun ch hm => h ch (by simp [hm]))]
    simp

/-- `splitList` opens a new part at an occurrence of the separator. -/
theorem splitList_head (sep l2 : List Char) (hp : sep ≠ []) :
    splitList sep (sep ++ l2) = [] :: splitList sep l2 := by
  rcases sep with _ | ⟨p, pt⟩
  · exact absurd rfl hp
  · rw [List.cons_append, splitList]
    rw [if_pos ⟨by simp, List.isPrefixOf_iff_prefix.mpr (by
      rw [← List.cons_append]; exact List.prefix_append _ _)⟩]
    rw [List.length_cons, Nat.add_sub_cancel, List.drop_left]

/-- `dropWhile` cannot cross a failing character. -/
theorem dropWhile_append_of_head (p : Char → Bool) (l1 : List Char)
    (c : Char) (t : List Char) (hc : p c = false) :
    List.dropWhile p (l1 ++ c :: t) = List.dropWhile p l1 ++ c :: t := by
  induction l1 with
  | nil => simp [List.dropWhile_cons, hc]
  | cons a l1 ih =>
    by_cases ha : p a
    · simp [List.dropWhile_cons, ha, ih]
    · simp [List.dropWhile_cons, ha]

/-- Python `strip` around a bracketed core: only the outer prose is
trimmed; the core (which starts with `[` and ends with `]`) and
everything between survives verbatim. -/
theorem pyStripL_decompose (l1 mid l2 : List Char) :
    pyStripL (l1 ++ ('[' :: mid ++ [']']) ++ l2)
      = List.dropWhile isPySpace l1 ++ ('[' :: mid ++ [']'])
        ++ (List.dropWhile isPySpace l2.reverse).reverse := by
  unfold pyStripL
  rw [show l1 ++ ('[' :: mid ++ [']']) ++ l2 = l1 ++ '[' :: (mid ++ ']' :: l2) by simp]
  rw [dropWhile_append_of_head _ _ _ _ (by decide)]
  rw [show List.dropWhile isPySpace l1 ++ '[' :: (mid ++ ']' :: l2)
        = (List.dropWhile isPySpace l1 ++ '[' :: mid) ++ ']' :: l2 by simp]
  rw [List.reverse_append]
  rw [show (']' :: l2).reverse = l2.reverse ++ [']'] by simp]
  rw [show l2.reverse ++ [']'] ++ (List.dropWhile isPySpace l1 ++ '[' :: mid).reverse
        = l2.reverse ++ ']' :: (List.dropWhile isPySpace l1 ++ '[' :: mid).reverse by simp]
  rw [dropWhile_append_of_head _ _ _ _ (by decide)]
  simp [List.reverse_append, List.append_assoc]

/-- `scanClose` returns the span up to the first `]]`. -/
theorem scanClose_append (mid l2 : List Char)
    (h : ∀ ch ∈ mid, ch ≠ ']' ∧ ch ≠ '\n') :
    scanClose (mid ++ ']' :: ']' :: l2) = some mid := by
  induction mid with
  | nil =>
    rw [List.nil_append, scanClose]
    rw [if_pos ⟨rfl, by simp⟩]
  | cons c mid ih =>
    rw [List.cons_append, scanClose]
    rw [if_neg (fun hc => (h c (by simp)).1 hc.1)]
    rw [if_neg (h c (by simp)).2]
    rw [ih (fun ch hm => h ch (by simp [hm]))]
    rfl

/-- `findSpanAux` skips `[`-free prose and returns the first span. -/
theorem findSpanAux_locates (p1 mid l2 : List Char)
    (hp : ∀ ch ∈ p1, ch ≠ '[')
    (hm : ∀ ch ∈ mid, ch ≠ ']' ∧ ch ≠ '\n') :
    findSpanAux (p1 ++ '[' :: '[' :: (mid ++ ']' :: ']' :: l2)) = some mid := by
  induction p1 with
  | nil =>
    rw [List.nil_append, findSpanAux]
    rw [if_pos ⟨rfl, by simp⟩]
    simp only [List.tail_cons]
    rw [scanClose_append mid l2 hm]
  | cons c p1 ih =>
    rw [List.cons_append, findSpanAux]
    rw [if_neg (fun hc => hp c (by simp) hc.1)]
    exact ih (fun ch hm' => hp ch (by simp [hm']))

/-- `takeWhile` keeps a list all of whose elements satisfy the predicate. -/
theorem takeWhile_all (p : Char → Bool) (l : List Char)
    (h : ∀ a ∈ l, p a = true) : l.takeWhile p = l := by
  induction l with
  | nil => rfl
  | cons a l ih =>
    rw [List.takeWhile_cons, h a (by simp)]
    rw [ih (fun a' ha' => h a' (by simp [ha']))]
    simp

/-- The anchored match of `^lit (?P<v>[^\x7d]*)$` (with the residual
empty literal) on `lit ++ val` greedily captures all of `val`. -/
theorem matchToks_lit_var (s val : List Char) (v : String)
    (hval : ∀ ch ∈ val, ch ≠ '\x7d') :
    matchToks [PatTok.lit s, PatTok.var v, PatTok.lit []] (s ++ val)
      = some [(v, String.mk val)] := by
  rw [matchToks]
  rw [if_pos (List.isPrefixOf_iff_prefix.mpr (List.prefix_append _ _))]
  rw [List.drop_left]
  rw [matchToks]
  have hmax : maxVarLen val = val.length := by
    unfold maxVarLen
    rw [takeWhile_all _ _ (fun a ha => by simpa using hval a ha)]
  rw [hmax, List.range_succ, List.reverse_append]
  simp only [List.reverse_cons, List.reverse_nil, List.nil_append, List.cons_append,
    List.findSome?_cons]
  rw [List.drop_length, List.take_length]
  rw [matchToks]
  rw [if_pos (by simp [List.isPrefixOf_iff_prefix])]
  simp [matchToks]

/-- A plain character is none of the delimiter characters. -/
theorem plainChar_ne (ch : Char) (h : plainChar ch = true) :
    ch ≠ '[' ∧ ch ≠ ']' ∧ ch ≠ '\x7b' ∧ ch ≠ '\x7d' ∧ ch ≠ '\n' := by
  refine ⟨?_, ?_, ?_, ?_, ?_⟩ <;> rintro rfl <;> exact absurd h (by decide)

/-- Alphanumeric/underscore characters are plain. -/
theorem identChar_plain (ch : Char) (h : (ch.isAlphanum || ch == '_') = true) :
    plainChar ch = true := by
  cases hx : (ch == '[' || ch == ']' || ch == '\x7b' || ch == '\x7d' || ch == '\n') with
  | false => simp [plainChar, hx]
  | true =>
    simp only [Bool.or_eq_true, beq_iff_eq] at hx
    rcases hx with ((((rfl | rfl) | rfl) | rfl) | rfl) <;> exact absurd h (by decide)

/-- Every character of a Python identifier is plain. -/
theorem isPyIdent_chars (v : String) (h : isPyIdent v = true) :
    ∀ ch ∈ v.data, plainChar ch = true := by
  unfold isPyIdent at h
  intro ch hm
  rcases hd : v.data with _ | ⟨c, rest⟩
  · rw [hd] at hm; simp at hm
  · rw [hd] at h hm
    simp only [Bool.and_eq_true] at h
    rcases List.mem_cons.mp hm with rfl | hm'
    · apply identChar_plain
      cases hA : ch.isAlpha with
      | true => simp [Char.isAlphanum, hA]
      | false =>
        have h1 := h.1
        rw [hA] at h1
        simp only [Bool.false_or] at h1
        simp [h1]
    · exact identChar_plain ch ((List.all_eq_true.mp h.2) ch hm')

/-- The characters of the stripped core `s ++ \x7bv\x7d` are neither
`[` nor `]`. -/
theorem core_chars (s v : String)
    (hs : ∀ ch ∈ s.data, plainChar ch = true)
    (hv : ∀ ch ∈ v.data, plainChar ch = true) :
    ∀ ch ∈ s.data ++ ('\x7b' :: (v.data ++ ['\x7d'])), ch ≠ '[' ∧ ch ≠ ']' := by
  intro ch hm
  rcases List.mem_append.mp hm with h1 | h2
  · have := plainChar_ne ch (hs ch h1)
    exact ⟨this.1, this.2.1⟩
  · rcases List.mem_cons.mp h2 with rfl | h3
    · exact ⟨by decide, by decide⟩
    · rcases List.mem_append.mp h3 with h4 | h5
      · have := plainChar_ne ch (hv ch h4)
        exact ⟨this.1, this.2.1⟩
      · rcases List.mem_singleton.mp h5 with rfl
        exact ⟨by decide, by decide⟩

/-- The `pattern` of a single-variable command, as a character list. -/
theorem pattern_data (c : CommandMetadata) (s v : String)
    (hpat : c.pattern = "[[" ++ s ++ "\x7b" ++ v ++ "\x7d]]") :
    c.pattern.data
      = ['[', '['] ++ ((s.data ++ ('\x7b' :: (v.data ++ ['\x7d']))) ++ [']', ']']) := by
  rw [hpat]
  simp only [data_append, show "[[".data = ['[', '['] from rfl,
    show "\x7b".data = ['\x7b'] from rfl,
    show "\x7d]]".data = ['\x7d', ']', ']'] from rfl]
  simp [List.append_assoc]

/-- Compiling the pattern `[[s\x7bv\x7d]]` with the single declared
variable `v`: the delimiters are stripped, and the placeholder becomes a
capture between literal `s` and the residual empty literal —
exactly what `_extract_command` builds its regex from. -/
theorem compile_single_var (c : CommandMetadata) (s v d ex : String)
    (hpat : c.pattern = "[[" ++ s ++ "\x7b" ++ v ++ "\x7d]]")
    (hvars : c.vars = [⟨v, d, ex⟩])
    (hs : ∀ ch ∈ s.data, plainChar ch = true)
    (hv : ∀ ch ∈ v.data, plainChar ch = true) :
    compileCommand c = [PatTok.lit s.data, PatTok.var v, PatTok.lit []] := by
  have hcore := core_chars s v hs hv
  unfold compileCommand stripDelims
  rw [hvars, pattern_data c s v hpat]
  rw [replaceList_head ['[', '['] [] _ (by simp)]
  rw [List.nil_append]
  rw [replaceList_of_not_mem '[' ['['] [] _ (by
    intro ch hm
    rcases List.mem_append.mp hm with h1 | h2
    · exact (hcore ch h1).1
    · rcases List.mem_cons.mp h2 with rfl | h3
      · decide
      · rcases List.mem_singleton.mp h3 with rfl; decide)]
  rw [replaceList_skip ']' [']'] [] _ [']', ']'] (fun ch hm => (hcore ch hm).2)]
  rw [show replaceList [']', ']'] [] [']', ']'] = ([] : List Char) from rfl]
  rw [List.append_nil]
  simp only [List.foldl_cons, List.foldl_nil]
  unfold substVar
  simp only [List.flatMap_cons, List.flatMap_nil, List.append_nil]
  have hsp : splitList ('\x7b' :: (v.data ++ ['\x7d'])) ('\x7b' :: (v.data ++ ['\x7d']))
      = [] :: [[]] := by
    have h0 := splitList_head ('\x7b' :: (v.data ++ ['\x7d'])) [] (by simp)
    rw [List.append_nil] at h0
    rw [h0]
    rfl
  rw [splitList_skip '\x7b' (v.data ++ ['\x7d']) s.data _ [] [[]]
    (fun ch hm => (plainChar_ne ch (hs ch hm)).2.2.1) hsp]
  rw [List.append_nil]
  rfl

/-- Rendering the pattern `[[s\x7bv\x7d]]` with the value `val` for `v`
(the specification's substitution step). -/
theorem render_single_var (c : CommandMetadata) (s v d ex val : String)
    (hpat : c.pattern = "[[" ++ s ++ "\x7b" ++ v ++ "\x7d]]")
    (hvars : c.vars = [⟨v, d, ex⟩])
    (hs : ∀ ch ∈ s.data, plainChar ch = true) :
    (renderPattern c [(v, val)]).data
      = '[' :: '[' :: (s.data ++ (val.data ++ [']', ']'])) := by
  unfold renderPattern
  rw [hvars]
  simp only [List.foldl_cons, List.foldl_nil]
  have hlk : ((([((v : String), val)].find? (fun p => p.1 == v)).map Prod.snd).getD "") = val := by
    simp
  rw [hlk, pattern_data c s v hpat]
  rw [show ['[', '['] ++ ((s.data ++ ('\x7b' :: (v.data ++ ['\x7d']))) ++ [']', ']'])
        = (['[', '['] ++ s.data) ++ (('\x7b' :: (v.data ++ ['\x7d'])) ++ [']', ']']) by simp]
  rw [replaceList_skip '\x7b' (v.data ++ ['\x7d']) val.data (['[', '['] ++ s.data) _ (by
    intro ch hm
    rcases List.mem_append.mp hm with h1 | h2
    · rcases List.mem_cons.mp h1 with rfl | h1'
      · decide
      · rcases List.mem_singleton.mp h1' with rfl; decide
    · exact (plainChar_ne ch (hs ch h2)).2.2.1)]
  rw [replaceList_head ('\x7b' :: (v.data ++ ['\x7d'])) val.data [']', ']'] (by simp)]
  rw [replaceList_of_not_mem '\x7b' (v.data ++ ['\x7d']) val.data [']', ']'] (by
    intro ch hm
    rcases List.mem_cons.mp hm with rfl | h1
    · decide
    · rcases List.mem_singleton.mp h1 with rfl; decide)]
  simp [List.append_assoc]

/-- C1 counterexample: with two commands of identical pattern
registered (`walletCmd` first, `walletCmd2` second), rendering the
pattern of the SECOND command with `user_id = "1"` and running the
matcher returns the FIRST command's name — first match wins — not the
name of the command whose pattern was rendered, refuting the round trip
as stated. -/
theorem roundtrip_counterexample :
    renderPattern walletCmd2 [("user_id", "1")] = "[[GENERATE_WALLET_1]]"
    ∧ extract_command [walletCmd, walletCmd2] "[[GENERATE_WALLET_1]]"
        = some ("generate_wallet", [("user_id", "1")])
    ∧ "generate_wallet" ≠ walletCmd2.name :=
  ⟨by decide, by decide, by decide⟩

/-- C1 amended (proved): the round trip holds for a registered command
with pattern `[[s\x7bv\x7d]]` (a literal prefix and one trailing
variable, the shape of every pattern in the repository), provided:
the literal and the value are printable and delimiter-free, the
variable name is a Python identifier, the surrounding prose introduces
no `[` before the instance, and no earlier-registered command's pattern
also matches the rendered span (first match wins — see the
counterexample).  Then the matcher recovers exactly the command's name
and exactly the variable assignment.  (`hsr` records that the literal
must also avoid regex metacharacters for the Python regex to treat it
literally; the token-level model assumes as much.) -/
theorem roundtrip_amended (reg pre post : List CommandMetadata)
    (c : CommandMetadata) (s v d ex val prose1 prose2 : String)
    (hreg : reg = pre ++ c :: post)
    (hpat : c.pattern = "[[" ++ s ++ "\x7b" ++ v ++ "\x7d]]")
    (hvars : c.vars = [⟨v, d, ex⟩])
    (hs : ∀ ch ∈ s.data, plainChar ch = true)
    (hsr : ∀ ch ∈ s.data, regexSpecial ch = false)
    (hv : isPyIdent v = true)
    (hval : ∀ ch ∈ val.data, plainChar ch = true)
    (hp1 : ∀ ch ∈ prose1.data, ch ≠ '[')
    (hpre : ∀ c' ∈ pre, matchToks (compileCommand c') (s.data ++ val.data) = none) :
    extract_command reg (prose1 ++ renderPattern c [(v, val)] ++ prose2)
      = some (c.name, [(v, val)]) := by
  subst hreg
  have hvp : ∀ ch ∈ v.data, plainChar ch = true := isPyIdent_chars v hv
  unfold extract_command
  have htext : (prose1 ++ renderPattern c [(v, val)] ++ prose2).data
      = prose1.data ++ ('[' :: ('[' :: (s.data ++ val.data ++ [']'])) ++ [']'])
        ++ prose2.data := by
    simp only [data_append, render_single_var c s v d ex val hpat hvars hs]
    simp [List.append_assoc]
  rw [htext, pyStripL_decompose]
  have hshape : List.dropWhile isPySpace prose1.data
        ++ ('[' :: ('[' :: (s.data ++ val.data ++ [']'])) ++ [']'])
        ++ (List.dropWhile isPySpace prose2.data.reverse).reverse
      = List.dropWhile isPySpace prose1.data
        ++ '[' :: '[' :: ((s.data ++ val.data)
          ++ ']' :: ']' :: (List.dropWhile isPySpace prose2.data.reverse).reverse) := by
    simp [List.append_assoc]
  rw [hshape]
  rw [findSpanAux_locates _ _ _
    (fun ch hm => hp1 ch ((List.dropWhile_sublist _).subset hm))
    (by
      intro ch hm
      rcases List.mem_append.mp hm with h1 | h2
      · have := plainChar_ne ch (hs ch h1)
        exact ⟨this.2.1, this.2.2.2.2⟩
      · have := plainChar_ne ch (hval ch h2)
        exact ⟨this.2.1, this.2.2.2.2⟩)]
  dsimp only
  rw [firstMatch_skip pre _ _ hpre]
  rw [firstMatch]
  rw [compile_single_var c s v d ex hpat hvars hs hvp]
  rw [matchToks_lit_var s.data val.data v
    (fun ch hm => (plainChar_ne ch (hval ch hm)).2.2.2.1)]

/-- Witness for `roundtrip_amended`: the wallet command, value `"123"`,
embedded in surrounding prose. -/
theorem roundtrip_amended_witness :
    extract_command [walletCmd]
        ("Sure: " ++ renderPattern walletCmd [("user_id", "123")] ++ " done!")
      = some ("generate_wallet", [("user_id", "123")]) :=
  roundtrip_amended [walletCmd] [] [] walletCmd
    "GENERATE_WALLET_" "user_id"
    "Unique identifier of the user requesting the wallet" "user123"
    "123" "Sure: " " done!"
    rfl (by decide) rfl (by decide) (by decide) (by decide) (by decide) (by decide)
    (fun c' hc' => absurd hc' (List.not_mem_nil c'))

end AIAgent
